import Mathlib

/-!
Shallow embedding and verification of the eyemodule pdb image extractor
(`src/eyemodule.py`).

Files are modelled as `List Nat` of byte values; Python strings of bytes
become `List Nat`, `ord` is the identity on these byte lists.  Fallible
Python operations (a function returning `None`, an `IndexError` or
`KeyError`) are modelled by the `PyResult` type below.  Python integers
are arbitrary precision, so `Int`/`Nat` model them exactly.
-/

namespace EyeModule

/-- Outcome of a Python method that can return `None` (graceful refusal),
raise an exception (`IndexError`/`KeyError`/`TypeError`), or succeed. -/
inductive PyResult (α : Type) where
  | retNone : PyResult α
  | exn : PyResult α
  | ok : α → PyResult α
deriving DecidableEq, Repr

/-- Python list indexing `l[i]` on an `Int` index: non-negative indices
index from the front, negative indices `-len ≤ i < 0` index from the end,
anything else raises `IndexError` (modelled as `none`). -/
def pyIndex (l : List Nat) (i : Int) : Option Nat :=
  if 0 ≤ i then l[i.toNat]?
  else if -(l.length : Int) ≤ i then l[((l.length : Int) + i).toNat]?
  else none

/-- Reading `len` bytes of `file` starting at byte `off`
(`file.seek(off); file.read(len)`); a read past end-of-file silently
returns the shorter available suffix, as in Python. -/
def readBytes (file : List Nat) (off len : Nat) : List Nat :=
  (file.drop off).take len

/-- Embedding of `__str_to_Word` (`src/eyemodule.py:193`): big-endian
2-byte string to word, `(ord s0 << 8) + ord s1`. -/
def str_to_Word (s : List Nat) : Nat :=
  (s.getD 0 0 <<< 8) + s.getD 1 0

/-- Embedding of `__str_to_Long` on a 3-byte string
(`src/eyemodule.py:202`): big-endian 3-byte string to long. -/
def str_to_Long3 (s : List Nat) : Nat :=
  (s.getD 0 0 <<< 16) + (s.getD 1 0 <<< 8) + s.getD 2 0

/-- Big-endian 4-byte unsigned integer, the shape of a `struct.unpack`
`"> L"` field and of `__str_to_Long` on a 4-byte string
(`src/eyemodule.py:202`). -/
def str_to_Long4 (s : List Nat) : Nat :=
  (s.getD 0 0 <<< 24) + (s.getD 1 0 <<< 16) + (s.getD 2 0 <<< 8) + s.getD 3 0

/-! ## Pixel decoders (`src/eyemodule.py:215` and `src/eyemodule.py:238`) -/

/-- Embedding of `_decode_image_Grayscale` (`src/eyemodule.py:215`):
for each byte `value` of `img_data` append the two samples
`255 - (value & 0xF0)` and `255 - ((value & 0x0F) << 4)` to the
pixel array. -/
def _decode_image_Grayscale (img_data : List Nat) : List Nat :=
  img_data.foldl
    (fun img_array value =>
      img_array ++ [255 - (value &&& 0xF0), 255 - ((value &&& 0x0F) <<< 4)])
    []

/-- Positions visited by `xrange(4, len, 4)` in `_decode_image_Color`
(`src/eyemodule.py:249`): the multiples of 4 in `[4, len)`, in
increasing order. -/
def quad_positions (len : Nat) : List Nat :=
  (List.range len).filter (fun pos => decide (4 ≤ pos ∧ pos % 4 = 0))

/-- Samples emitted for one non-skipped quad of `_decode_image_Color`
(`src/eyemodule.py:255`-`258`): read
`U, Y1, V, Y2 = img_data[pos], img_data[pos+1], img_data[pos+2],
img_data[pos+3]` and emit the two YCbCr samples `(Y1,U,V)` and
`(Y2,U,V)`.  The flat byte buffer `[Y1,U,V,Y2,U,V]` of the source is
modelled as two triples. -/
def quad_samples (img_data : List Nat) (pos : Nat) : List (Nat × Nat × Nat) :=
  let U := img_data.getD pos 0
  let Y1 := img_data.getD (pos + 1) 0
  let V := img_data.getD (pos + 2) 0
  let Y2 := img_data.getD (pos + 3) 0
  [(Y1, U, V), (Y2, U, V)]

/-- Embedding of the scan loop of `_decode_image_Color`
(`src/eyemodule.py:249`-`258`): for each visited position `pos`, skip the
quad when `pos % 6404 == 0`, otherwise append the two samples of
`quad_samples`. -/
def _decode_image_Color (img_data : List Nat) : List (Nat × Nat × Nat) :=
  (quad_positions img_data.length).foldl
    (fun img_array pos =>
      if pos % 6404 = 0 then img_array
      else img_array ++ quad_samples img_data pos)
    []

/-- Embedding of the final step of `_decode_image_Color`
(`src/eyemodule.py:260`-`262`): the YCbCr buffer produced by the scan is
handed to the separate RGB conversion (`img.convert("RGB")`, a PIL
collaborator modelled as an arbitrary per-sample map), applied only after
the scan is complete. -/
def _decode_image_Color_RGB (convert : Nat × Nat × Nat → Nat × Nat × Nat)
    (img_data : List Nat) : List (Nat × Nat × Nat) :=
  (_decode_image_Color img_data).map convert

/-! ## Header decoding and the image catalog
(`src/eyemodule.py:265`-`408`) -/

/-- The header length of each image (`src/eyemodule.py:75`). -/
def HEADER_LENGTH : Nat := 58

/-- Embedding of `time_Offset = long(time.mktime((1904, 1, 1, 0, 0, 0, 0, 0, 0)))`
(`src/eyemodule.py:310`).  `time.mktime` is evaluated on the host; on a
UTC-configured host it returns the Unix timestamp of
1904-01-01T00:00:00 UTC, which is `-2082844800` (66 years of 365 days
plus 17 leap days before 1970, in seconds). -/
def time_Offset : Int := -2082844800

/-- Decoded image header, the `header_dict` built by `get_header`
(`src/eyemodule.py:283`-`325`).  The source's `"Type"` key is named
`imgType` here; `created` keeps the integer timestamp that the source
formats with `time.ctime`. -/
structure HeaderDict where
  Name : List Nat
  version : Nat
  imgType : Nat
  firstVGARecUID : Nat
  noteUID : Nat
  lastPosX : Nat
  lastPosY : Nat
  created : Int
  anchorX : Nat
  anchorY : Nat
  Width : Nat
  Height : Nat
deriving DecidableEq, Repr

/-- Field extraction of `get_header` (`src/eyemodule.py:286`-`323`) on a
successfully unpacked 58-byte header string: the fields of
`struct.unpack("> 32s B B L L 2s 2s L 2s 2s 2s 2s", header)`, with the
`Name` field keeping the bytes before the first NUL of the 32-byte name
field.  The unpack itself can fail and is modelled by `unpack_header`
below; this extractor is only ever applied under a successful unpack. -/
def decode_header (header : List Nat) : HeaderDict where
  Name := (header.take 32).takeWhile (fun b => b != 0)
  version := header.getD 32 0
  imgType := header.getD 33 0
  firstVGARecUID := str_to_Long4 (readBytes header 34 4)
  noteUID := str_to_Long4 (readBytes header 38 4)
  lastPosX := str_to_Word (readBytes header 42 2)
  lastPosY := str_to_Word (readBytes header 44 2)
  created := (str_to_Long4 (readBytes header 46 4) : Int) + time_Offset
  anchorX := str_to_Word (readBytes header 50 2)
  anchorY := str_to_Word (readBytes header 52 2)
  Width := str_to_Word (readBytes header 54 2)
  Height := str_to_Word (readBytes header 56 2)

/-- Fallible header unpacking and decoding (`src/eyemodule.py:286`-`289`):
`struct.unpack("> 32s B B L L 2s 2s L 2s 2s 2s 2s", header)` requires the
input to be exactly 58 bytes and raises `struct.error` otherwise (a read
near end-of-file returns fewer bytes), and
`string.index(header_tuple[0], "\x00")` raises `ValueError` when the
32-byte name field holds no NUL; either exception is `none`. -/
def unpack_header (header : List Nat) : Option HeaderDict :=
  if header.length = HEADER_LENGTH then
    if (header.take 32).contains 0 then some (decode_header header)
    else none
  else none

/-- Mutable catalog state: the navigation cursor `__cur_image`
(a Python int, so an `Int`), the record count `__record_cnt` read from
the main container, and the sorted image offset list `__images`. -/
structure EyeState where
  cur_image : Int
  record_cnt : Nat
  images : List Nat
deriving DecidableEq, Repr

/-- Reading and decoding the 58-byte header at `self.__images[image_nr]`
(`src/eyemodule.py:279`-`289`); a bad list index raises `IndexError`, and
a truncated read or NUL-free name field makes the unpack raise. -/
def header_at (emDB : List Nat) (s : EyeState) (image_nr : Int) :
    PyResult HeaderDict × EyeState :=
  match pyIndex s.images image_nr with
  | none => (.exn, s)
  | some off =>
    match unpack_header (readBytes emDB off HEADER_LENGTH) with
    | none => (.exn, s)
    | some h => (.ok h, s)

/-- Embedding of `get_header` (`src/eyemodule.py:265`): `image_nr == -1`
uses the cursor without mutating it; an explicit `image_nr < record_cnt`
becomes the new cursor; otherwise the method returns `None`. -/
def get_header (emDB : List Nat) (s : EyeState) (image_nr : Int) :
    PyResult HeaderDict × EyeState :=
  if image_nr = -1 then
    header_at emDB s s.cur_image
  else if image_nr < (s.record_cnt : Int) then
    header_at emDB { s with cur_image := image_nr } image_nr
  else (.retNone, s)

/-- Body of `get_image` after image-number resolution
(`src/eyemodule.py:341`-`368`): re-read the header via
`get_header(self.__cur_image)`, then decode the color payload found
through the VGA offset dictionary when `firstVGARecUID` is set, or the
grayscale payload at `images[image_nr] + 58` otherwise.  A `None` header
would make `header["Width"]` raise, hence `.exn`. -/
def get_image_body (emDB emVGADB : List Nat) (vga_dict : List (Nat × Nat))
    (s : EyeState) (image_nr : Int) :
    PyResult (List (Nat × Nat × Nat) ⊕ List Nat) × EyeState :=
  match get_header emDB s s.cur_image with
  | (.retNone, s') => (.exn, s')
  | (.exn, s') => (.exn, s')
  | (.ok header, s') =>
    let img_length := header.Width * header.Height
    if header.firstVGARecUID ≠ 0 then
      match vga_dict.lookup header.firstVGARecUID with
      | none => (.exn, s')
      | some vga_off =>
        (.ok (.inl (_decode_image_Color (readBytes emVGADB vga_off 153696))), s')
    else
      match pyIndex s'.images image_nr with
      | none => (.exn, s')
      | some img_off =>
        (.ok (.inr (_decode_image_Grayscale
          (readBytes emDB (img_off + HEADER_LENGTH) (img_length / 2)))), s')

/-- Embedding of `get_image` (`src/eyemodule.py:328`): same image-number
resolution as `get_header`, then the decode dispatch of
`get_image_body`. -/
def get_image (emDB emVGADB : List Nat) (vga_dict : List (Nat × Nat))
    (s : EyeState) (image_nr : Int) :
    PyResult (List (Nat × Nat × Nat) ⊕ List Nat) × EyeState :=
  if image_nr = -1 then
    get_image_body emDB emVGADB vga_dict s s.cur_image
  else if image_nr < (s.record_cnt : Int) then
    get_image_body emDB emVGADB vga_dict { s with cur_image := image_nr } image_nr
  else (.retNone, s)

/-- Embedding of `max_image_nr` (`src/eyemodule.py:371`): returns the
record count. -/
def max_image_nr (s : EyeState) : Nat :=
  s.record_cnt

/-- Embedding of `get_next_image` (`src/eyemodule.py:385`): if
`cur_image + 1 < record_cnt`, increment the cursor and return the image
there, else return `None`. -/
def get_next_image (emDB emVGADB : List Nat) (vga_dict : List (Nat × Nat))
    (s : EyeState) :
    PyResult (List (Nat × Nat × Nat) ⊕ List Nat) × EyeState :=
  if s.cur_image + 1 < (s.record_cnt : Int) then
    get_image emDB emVGADB vga_dict { s with cur_image := s.cur_image + 1 }
      (s.cur_image + 1)
  else (.retNone, s)

/-- Embedding of `get_previous_image` (`src/eyemodule.py:398`): if
`cur_image - 1 > 0`, decrement the cursor and return the image there,
else return `None`. -/
def get_previous_image (emDB emVGADB : List Nat) (vga_dict : List (Nat × Nat))
    (s : EyeState) :
    PyResult (List (Nat × Nat × Nat) ⊕ List Nat) × EyeState :=
  if 0 < s.cur_image - 1 then
    get_image emDB emVGADB vga_dict { s with cur_image := s.cur_image - 1 }
      (s.cur_image - 1)
  else (.retNone, s)


/-! ## Index builders (`src/eyemodule.py:117`-`173`) and note extraction -/

/-- Python dict assignment `d[key] = val` on an association-list model:
any earlier binding of `key` is replaced and the new binding appended. -/
def dict_insert (d : List (Nat × Nat)) (key val : Nat) : List (Nat × Nat) :=
  (d.filter (fun p => p.1 != key)) ++ [(key, val)]

/-- Embedding of the main-container record scan
(`src/eyemodule.py:126`-`128`): for each record entry unpacked as
`"> L B 3s"` into `(dataOffset, attr, pad)`, store
`dataOffset -> attr & 0x0F` in the offsets dict.  `entries` is the list
of `(dataOffset, attr)` pairs in file order. -/
def build_rec_data_offset_dict (entries : List (Nat × Nat)) :
    List (Nat × Nat) :=
  entries.foldl (fun d e => dict_insert d e.1 (e.2 &&& 0x0F)) []

/-- Key list of the association-list dict model (`dict.keys()`). -/
def dict_keys (d : List (Nat × Nat)) : List Nat :=
  d.map Prod.fst

/-- Embedding of `self.__images = self.__rec_data_offset_dict.keys();
self.__images.sort()` (`src/eyemodule.py:131`-`132`). -/
def images_list (entries : List (Nat × Nat)) : List Nat :=
  List.insertionSort (· ≤ ·) (dict_keys (build_rec_data_offset_dict entries))

/-- Catalog state after `__init__` has read `entries` from the main
container: the cursor starts at 0 (`src/eyemodule.py:102`), `record_cnt`
counts the record entries read (`src/eyemodule.py:118`-`126`), and
`images` is the sorted key list. -/
def init_state (entries : List (Nat × Nat)) : EyeState :=
  { cur_image := 0
    record_cnt := entries.length
    images := images_list entries }

/-- Embedding of the category name lookup
`self.__category_names[self.__rec_data_offset_dict[self.__images[image_nr]]]`
(`src/eyemodule.py:462`): index the sorted offset list, look up the
category id in the offsets dict, then index the name table; any failed
lookup raises (`none`). -/
def categoryOf (entries : List (Nat × Nat)) (category_names : List (List Nat))
    (image_nr : Nat) : Option (List Nat) :=
  match (images_list entries)[image_nr]? with
  | none => none
  | some off =>
    match (build_rec_data_offset_dict entries).lookup off with
    | none => none
    | some cid => category_names[cid]?

/-- One indexed VGA record, unpacked as `"> L B 3s"` at byte `pos`
(`src/eyemodule.py:155`-`156`): the dict assignment
`uid (3-byte BE) -> dataOffset (u32 BE)`. -/
def vga_index_entry (emVGADB : List Nat) (pos : Nat) : Nat × Nat :=
  (str_to_Long3 (readBytes emVGADB (pos + 5) 3),
   str_to_Long4 (readBytes emVGADB pos 4))

/-- The VGA scan loop (`src/eyemodule.py:154`-`159`): each iteration reads
the 8-byte indexed record at the current position and then seeks 184
bytes further (`tell() + 184`), so consecutive reads are 192 bytes apart.
The dict assignments are modelled as the list of inserted pairs in scan
order. -/
def build_vga_loop (emVGADB : List Nat) : Nat → Nat → List (Nat × Nat)
  | 0, _ => []
  | iters + 1, pos =>
    vga_index_entry emVGADB pos :: build_vga_loop emVGADB iters (pos + 8 + 184)

/-- Embedding of the VGA index build (`src/eyemodule.py:145`-`159`): the
record count is read at bytes 76-77, leaving the file position at 78;
`range(0, vga_record_cnt, 24)` performs `⌈vga_record_cnt / 24⌉`
iterations, with no check that the count is a multiple of 24. -/
def build_vga_index (emVGADB : List Nat) (vga_record_cnt : Nat) :
    List (Nat × Nat) :=
  build_vga_loop emVGADB ((vga_record_cnt + 23) / 24) 78

/-- The note-extraction loop of `extract_image`
(`src/eyemodule.py:487`-`490`), with explicit fuel: read one byte at a
time; a NUL byte terminates, any other byte is written to the note file
and the loop continues at the next position; at end-of-file `read(1)`
returns the empty string (`none` from the indexed read), which is not
equal to NUL, so the loop continues reading at the same position.  A
`none` result means the loop did not terminate within `fuel`
iterations. -/
def note_loop (emNoteDB : List Nat) : Nat → Nat → Option (List Nat)
  | 0, _ => none
  | fuel + 1, pos =>
    match emNoteDB[pos]? with
    | some c =>
      if c = 0 then some []
      else (note_loop emNoteDB fuel (pos + 1)).map (fun text => c :: text)
    | none => note_loop emNoteDB fuel pos

/-! ### Helper lemmas for the decoders -/

/-- Accumulating `foldl` with a skip test rewrites to `filter` + `bind`. -/
theorem foldl_skip_emit {α : Type} (f : Nat → List α) (skip : Nat → Prop)
    [DecidablePred skip] :
    ∀ (l : List Nat) (init : List α),
      l.foldl (fun acc pos => if skip pos then acc else acc ++ f pos) init
        = init ++ (l.filter (fun pos => decide (¬ skip pos))).flatMap f := by
  intro l
  induction l with
  | nil => intro init; simp
  | cons x xs ih =>
    intro init
    by_cases h : skip x
    · simp [h, ih]
    · simp [h, ih]

/-- Accumulating `foldl` (no skip) rewrites to `bind`. -/
theorem foldl_emit {α β : Type} (f : β → List α) :
    ∀ (l : List β) (init : List α),
      l.foldl (fun acc b => acc ++ f b) init = init ++ l.flatMap f := by
  intro l
  induction l with
  | nil => intro init; simp
  | cons x xs ih =>
    intro init
    simp [ih]

/-- Length of a `flatMap` whose function always emits two elements. -/
theorem length_bind_two {α β : Type} (f : β → List α)
    (hf : ∀ b, (f b).length = 2) :
    ∀ l : List β, (l.flatMap f).length = 2 * l.length := by
  intro l
  induction l with
  | nil => simp
  | cons x xs ih =>
    simp [List.flatMap_cons, hf, ih]
    omega

/-- Bridging a filtered `List.range` length with a filtered `Finset.range`
cardinality. -/
theorem filter_range_length_eq_card (P : Nat → Prop) [DecidablePred P] (n : Nat) :
    ((List.range n).filter (fun a => decide (P a))).length
      = ((Finset.range n).filter P).card := by
  rw [← List.countP_eq_length_filter]
  have h : (List.range n).countP (fun a => decide (P a)) = Nat.count P n := rfl
  rw [h, Nat.count_eq_card_filter_range]

/-- Counting the quads actually emitted by the color scan over a
153696-byte payload: multiples of 4 in `[4, 153696)` that are not
multiples of 6404. -/
theorem color_scan_quad_count :
    ((quad_positions 153696).filter (fun pos => decide (¬ pos % 6404 = 0))).length
      = 38400 := by
  rw [quad_positions, List.filter_filter]
  have hmain :
      ((List.range 153696).filter
          (fun a => decide ((4 ≤ a ∧ a % 4 = 0) ∧ ¬ a % 6404 = 0))).length
        = ((Finset.range 153696).filter
            (fun pos => (4 ≤ pos ∧ pos % 4 = 0) ∧ ¬ pos % 6404 = 0)).card :=
    filter_range_length_eq_card _ 153696
  have hfeq :
      (List.range 153696).filter
          (fun a => decide (¬ a % 6404 = 0) && decide (4 ≤ a ∧ a % 4 = 0))
        = (List.range 153696).filter
            (fun a => decide ((4 ≤ a ∧ a % 4 = 0) ∧ ¬ a % 6404 = 0)) :=
    List.filter_congr (fun x _ => by simp [Bool.and_comm])
  rw [hfeq, hmain]
  have hsub : ((Finset.Ioc 0 153695).filter (fun x => 6404 ∣ x))
      ⊆ ((Finset.Ioc 0 153695).filter (fun x => 4 ∣ x)) := by
    apply Finset.monotone_filter_right
    intro x hx
    exact dvd_trans (by norm_num) hx
  have hset : ((Finset.range 153696).filter
        (fun pos => (4 ≤ pos ∧ pos % 4 = 0) ∧ ¬ pos % 6404 = 0))
      = ((Finset.Ioc 0 153695).filter (fun x => 4 ∣ x))
        \ ((Finset.Ioc 0 153695).filter (fun x => 6404 ∣ x)) := by
    ext x
    simp only [Finset.mem_filter, Finset.mem_range, Finset.mem_sdiff, Finset.mem_Ioc]
    omega
  rw [hset, Finset.card_sdiff hsub, Nat.Ioc_filter_dvd_card_eq_div,
    Nat.Ioc_filter_dvd_card_eq_div]

/-! ## Claim theorems for the pixel decoders -/

/-- C1: for every color payload of exactly 153696 bytes, the color decoder
scans positions from 4 upward in steps of 4, skips the quad whenever
`pos % 6404 == 0`, otherwise reads `U,Y1,V,Y2 = payload[pos..pos+3]` and
emits `(Y1,U,V)` then `(Y2,U,V)`; the resulting YCbCr buffer holds exactly
`320*240 = 76800` samples, and RGB conversion is a separate step applied
after the scan. -/
theorem C1_color_decoder (img_data : List Nat)
    (hlen : img_data.length = 153696) :
    _decode_image_Color img_data
        = ((quad_positions 153696).filter
            (fun pos => decide (¬ pos % 6404 = 0))).flatMap (quad_samples img_data)
      ∧ (∀ pos,
          quad_samples img_data pos
            = [(img_data.getD (pos + 1) 0, img_data.getD pos 0,
                img_data.getD (pos + 2) 0),
               (img_data.getD (pos + 3) 0, img_data.getD pos 0,
                img_data.getD (pos + 2) 0)])
      ∧ (_decode_image_Color img_data).length = 76800
      ∧ 76800 = 320 * 240
      ∧ (∀ convert, _decode_image_Color_RGB convert img_data
          = (_decode_image_Color img_data).map convert) := by
  have hscan : _decode_image_Color img_data
      = ((quad_positions 153696).filter
          (fun pos => decide (¬ pos % 6404 = 0))).flatMap (quad_samples img_data) := by
    rw [_decode_image_Color, hlen]
    have h := foldl_skip_emit (quad_samples img_data) (fun pos => pos % 6404 = 0)
        (quad_positions 153696) []
    rw [List.nil_append] at h
    exact h
  refine ⟨hscan, fun pos => rfl, ?_, rfl, fun convert => rfl⟩
  rw [hscan, length_bind_two (quad_samples img_data) (fun pos => rfl),
    color_scan_quad_count]

/-- Witness for C1 at the all-zero 153696-byte payload. -/
theorem C1_color_decoder_witness :
    (_decode_image_Color (List.replicate 153696 0)).length = 76800 :=
  (C1_color_decoder (List.replicate 153696 0) (List.length_replicate _ _)).2.2.1

/-- C2: for every byte `b` of the grayscale payload the decoder emits
`255 - (b & 0xF0)` then `255 - ((b & 0x0F) << 4)`, in that order; byte
`0xF0` decodes to `(15, 255)`, byte `0x00` to `(255, 255)`, and an
`n`-byte payload yields exactly `2*n` samples. -/
theorem C2_grayscale_decoder :
    (∀ img_data : List Nat,
        _decode_image_Grayscale img_data
          = img_data.flatMap (fun value =>
              [255 - (value &&& 0xF0), 255 - ((value &&& 0x0F) <<< 4)]))
      ∧ (∀ img_data : List Nat,
          (_decode_image_Grayscale img_data).length = 2 * img_data.length)
      ∧ _decode_image_Grayscale [0xF0] = [15, 255]
      ∧ _decode_image_Grayscale [0x00] = [255, 255] := by
  have hmain : ∀ img_data : List Nat,
      _decode_image_Grayscale img_data
        = img_data.flatMap (fun value =>
            [255 - (value &&& 0xF0), 255 - ((value &&& 0x0F) <<< 4)]) := by
    intro img_data
    rw [_decode_image_Grayscale]
    have h := foldl_emit (fun value =>
        [255 - (value &&& 0xF0), 255 - ((value &&& 0x0F) <<< 4)])
      img_data []
    rw [List.nil_append] at h
    exact h
  refine ⟨hmain, ?_, by decide, by decide⟩
  intro img_data
  rw [hmain,
    length_bind_two
      (fun value => [255 - (value &&& 0xF0), 255 - ((value &&& 0x0F) <<< 4)])
      (fun value => rfl)]
/-! ## Helper lemmas for the catalog -/

/-- Python indexing at a non-negative in-range index. -/
theorem pyIndex_nonneg (l : List Nat) (i : Int) (h0 : 0 ≤ i)
    (h : i.toNat < l.length) :
    pyIndex l i = some (l.getD i.toNat 0) := by
  rw [pyIndex, if_pos h0, List.getElem?_eq_getElem h, List.getD_eq_getElem l 0 h]

/-- Python indexing at a negative index within `[-len, 0)` counts from the
end of the list. -/
theorem pyIndex_negIdx (l : List Nat) (i : Int) (hneg : i < 0)
    (h : -(l.length : Int) ≤ i) :
    pyIndex l i = some (l.getD ((l.length : Int) + i).toNat 0) := by
  have hlt : ((l.length : Int) + i).toNat < l.length := by omega
  rw [pyIndex, if_neg (by omega), if_pos h, List.getElem?_eq_getElem hlt,
    List.getD_eq_getElem l 0 hlt]

/-- The header read helper never changes the state. -/
theorem header_at_state (emDB : List Nat) (s : EyeState) (image_nr : Int) :
    (header_at emDB s image_nr).2 = s := by
  rw [header_at]
  cases pyIndex s.images image_nr with
  | none => rfl
  | some off =>
    show (match unpack_header (readBytes emDB off HEADER_LENGTH) with
      | none => ((.exn : PyResult HeaderDict), s)
      | some h => (.ok h, s)).2 = s
    cases unpack_header (readBytes emDB off HEADER_LENGTH) <;> rfl

/-- The header read helper succeeds when both the list index and the
58-byte unpack succeed. -/
theorem header_at_ok (emDB : List Nat) (s : EyeState) (image_nr : Int)
    (off : Nat) (hoff : pyIndex s.images image_nr = some off)
    (h : HeaderDict)
    (hdec : unpack_header (readBytes emDB off HEADER_LENGTH) = some h) :
    header_at emDB s image_nr = (.ok h, s) := by
  rw [header_at, hoff]
  show (match unpack_header (readBytes emDB off HEADER_LENGTH) with
    | none => ((.exn : PyResult HeaderDict), s)
    | some h => (.ok h, s)) = (.ok h, s)
  rw [hdec]

/-- Calling `get_header` with the current cursor leaves the cursor where
it is, whatever branch is taken. -/
theorem get_header_self_cursor (emDB : List Nat) (s : EyeState) :
    (get_header emDB s s.cur_image).2.cur_image = s.cur_image := by
  rw [get_header]
  split
  · rw [header_at_state]
  · split
    · rw [header_at_state]
    · rfl

/-- The state returned by `get_image_body` is the state returned by its
inner `get_header` call, so the cursor is preserved. -/
theorem get_image_body_cursor (emDB emVGADB : List Nat)
    (vga_dict : List (Nat × Nat)) (s : EyeState) (image_nr : Int) :
    (get_image_body emDB emVGADB vga_dict s image_nr).2.cur_image
      = s.cur_image := by
  have h := get_header_self_cursor emDB s
  rw [get_image_body]
  rcases hh : get_header emDB s s.cur_image with ⟨r, s'⟩
  rw [hh] at h
  cases r with
  | retNone => exact h
  | exn => exact h
  | ok header =>
    simp only
    split
    · cases vga_dict.lookup header.firstVGARecUID <;> exact h
    · cases pyIndex s'.images image_nr <;> exact h

/-- `get_image_body` never returns the graceful `None`: a failed inner
lookup raises instead. -/
theorem get_image_body_ne_retNone (emDB emVGADB : List Nat)
    (vga_dict : List (Nat × Nat)) (s : EyeState) (image_nr : Int) :
    (get_image_body emDB emVGADB vga_dict s image_nr).1 ≠ .retNone := by
  rw [get_image_body]
  rcases hh : get_header emDB s s.cur_image with ⟨r, s'⟩
  cases r with
  | retNone => simp
  | exn => simp
  | ok header =>
    simp only
    split
    · cases vga_dict.lookup header.firstVGARecUID <;> simp
    · cases pyIndex s'.images image_nr <;> simp

/-- Calling `get_image` with the current cursor as explicit argument
preserves the cursor. -/
theorem get_image_self_cursor (emDB emVGADB : List Nat)
    (vga_dict : List (Nat × Nat)) (s : EyeState) :
    (get_image emDB emVGADB vga_dict s s.cur_image).2.cur_image
      = s.cur_image := by
  rw [get_image]
  split
  · rw [get_image_body_cursor]
  · split
    · rw [get_image_body_cursor]
    · rfl

/-! ## Claim theorems for the catalog -/

/-- C3 counterexample: retreating from cursor 1 does not move the cursor
to 0, contrary to the claim that every cursor `c` with `0 < c` retreats to
`c - 1`: the guard `cur_image - 1 > 0` already fails at `c = 1`. -/
theorem C3_retreat_counterexample :
    (get_previous_image [] [] []
        { cur_image := 1, record_cnt := 5,
          images := [10, 20, 30, 40, 50] }).2.cur_image ≠ 0 := by
  decide

/-- C3 as amended: `get_previous_image` moves the cursor to `c - 1` only
when `1 < c` (so cursor 0 is never reachable by retreating) and otherwise
returns `None` leaving the cursor unchanged; `get_next_image` moves the
cursor to `c + 1` when `c + 1 < record_cnt` and otherwise (in particular
at the last valid image number) returns `None` leaving the state
unchanged. -/
theorem C3_navigation (emDB emVGADB : List Nat)
    (vga_dict : List (Nat × Nat)) (s : EyeState) :
    (1 < s.cur_image →
      (get_previous_image emDB emVGADB vga_dict s).2.cur_image
        = s.cur_image - 1)
    ∧ (s.cur_image ≤ 1 →
      get_previous_image emDB emVGADB vga_dict s = (.retNone, s))
    ∧ (s.cur_image + 1 < (s.record_cnt : Int) →
      (get_next_image emDB emVGADB vga_dict s).2.cur_image
        = s.cur_image + 1)
    ∧ ((s.record_cnt : Int) ≤ s.cur_image + 1 →
      get_next_image emDB emVGADB vga_dict s = (.retNone, s)) := by
  refine ⟨fun h => ?_, fun h => ?_, fun h => ?_, fun h => ?_⟩
  · rw [get_previous_image, if_pos (by omega)]
    exact get_image_self_cursor emDB emVGADB vga_dict
      { s with cur_image := s.cur_image - 1 }
  · rw [get_previous_image, if_neg (by omega)]
  · rw [get_next_image, if_pos h]
    exact get_image_self_cursor emDB emVGADB vga_dict
      { s with cur_image := s.cur_image + 1 }
  · rw [get_next_image, if_neg (by omega)]

/-- Witness for C3 at concrete states: retreat from cursor 2 lands on 1,
retreat from cursor 1 is refused, and advance at the last valid image
number 4 of 5 is refused with the state unchanged. -/
theorem C3_navigation_witness :
    (get_previous_image [] [] []
        { cur_image := 2, record_cnt := 5, images := [] }).2.cur_image = 1
    ∧ get_previous_image [] [] []
        { cur_image := 1, record_cnt := 5, images := [] }
      = (.retNone, { cur_image := 1, record_cnt := 5, images := [] })
    ∧ get_next_image [] [] []
        { cur_image := 4, record_cnt := 5, images := [] }
      = (.retNone, { cur_image := 4, record_cnt := 5, images := [] }) :=
  ⟨(C3_navigation [] [] [] _).1 (by decide),
   (C3_navigation [] [] [] _).2.1 (by decide),
   (C3_navigation [] [] [] _).2.2.2 (by decide)⟩

/-- C4: `get_header` with the default number `-1` uses the cursor and
leaves the state unchanged; an explicit number at or above the record
count returns `None` without touching the state; an explicit in-range
number becomes the new cursor, and the result is the 58-byte header read
at that image's data offset, unpacked and decoded — succeeding exactly
when the unpack does. -/
theorem C4_get_header_resolution (emDB : List Nat) (s : EyeState) (n : Int) :
    ((get_header emDB s (-1)).2 = s)
    ∧ ((s.record_cnt : Int) ≤ n → get_header emDB s n = (.retNone, s))
    ∧ (0 ≤ n → n < (s.record_cnt : Int) →
        (get_header emDB s n).2 = { s with cur_image := n })
    ∧ (0 ≤ n → n < (s.record_cnt : Int) → s.images.length = s.record_cnt →
        ∀ h, unpack_header
            (readBytes emDB (s.images.getD n.toNat 0) HEADER_LENGTH)
            = some h →
          get_header emDB s n = (.ok h, { s with cur_image := n }))
    ∧ (0 ≤ s.cur_image → s.cur_image.toNat < s.images.length →
        ∀ h, unpack_header
            (readBytes emDB (s.images.getD s.cur_image.toNat 0) HEADER_LENGTH)
            = some h →
          (get_header emDB s (-1)).1 = .ok h) := by
  refine ⟨?_, fun h => ?_, fun h0 h1 => ?_, fun h0 h1 hwf hdr hdec => ?_,
    fun h0 h1 hdr hdec => ?_⟩
  · rw [get_header, if_pos rfl, header_at_state]
  · rw [get_header, if_neg (by omega), if_neg (by omega)]
  · rw [get_header, if_neg (by omega), if_pos h1, header_at_state]
  · rw [get_header, if_neg (by omega), if_pos h1]
    exact header_at_ok emDB { s with cur_image := n } n
      (s.images.getD n.toNat 0)
      (pyIndex_nonneg _ _ h0 (show n.toNat < s.images.length by omega))
      hdr hdec
  · rw [get_header, if_pos rfl,
      header_at_ok emDB s s.cur_image (s.images.getD s.cur_image.toNat 0)
        (pyIndex_nonneg _ _ h0 h1) hdr hdec]

/-- Witness for C4 at a concrete catalog over a 60-byte all-zero
container: the explicit number 5 ≥ count 2 is refused without cursor
movement, and the explicit in-range number 1 moves the cursor and
successfully unpacks and decodes the 58 bytes at offset 2. -/
theorem C4_get_header_resolution_witness :
    get_header (List.replicate 60 0)
        { cur_image := 0, record_cnt := 2, images := [0, 2] } 5
      = (.retNone, { cur_image := 0, record_cnt := 2, images := [0, 2] })
    ∧ get_header (List.replicate 60 0)
        { cur_image := 0, record_cnt := 2, images := [0, 2] } 1
      = (.ok { Name := [], version := 0, imgType := 0, firstVGARecUID := 0,
               noteUID := 0, lastPosX := 0, lastPosY := 0,
               created := -2082844800, anchorX := 0, anchorY := 0,
               Width := 0, Height := 0 },
         { cur_image := 1, record_cnt := 2, images := [0, 2] }) :=
  ⟨(C4_get_header_resolution (List.replicate 60 0) _ 5).2.1 (by decide),
   (C4_get_header_resolution (List.replicate 60 0) _ 1).2.2.2.1
     (by decide) (by decide) rfl _ (by decide)⟩

/-- Defaulted indexing into a list of byte values stays below 256. -/
theorem getD_lt_256 (l : List Nat) (hl : ∀ b ∈ l, b < 256) (i : Nat) :
    l.getD i 0 < 256 := by
  by_cases h : i < l.length
  · rw [List.getD_eq_getElem l 0 h]
    exact hl _ (List.getElem_mem h)
  · rw [List.getD_eq_default l 0 (by omega)]
    norm_num

/-- A byte of a `readBytes` slice is a byte of the file. -/
theorem readBytes_mem {file : List Nat} {off len b : Nat}
    (hb : b ∈ readBytes file off len) : b ∈ file := by
  rw [readBytes] at hb
  exact List.mem_of_mem_drop (List.mem_of_mem_take hb)

/-- A big-endian 4-byte field of byte values fits in 32 bits. -/
theorem str_to_Long4_lt (s : List Nat) (hs : ∀ b ∈ s, b < 256) :
    str_to_Long4 s < 2 ^ 32 := by
  have h0 := getD_lt_256 s hs 0
  have h1 := getD_lt_256 s hs 1
  have h2 := getD_lt_256 s hs 2
  have h3 := getD_lt_256 s hs 3
  rw [str_to_Long4]
  simp only [Nat.shiftLeft_eq]
  simp only [List.getD] at h0 h1 h2 h3 ⊢
  omega

/-- C5: the decoded `created` field is `createdRaw + time_Offset`, where
`time_Offset` is the Unix timestamp of 1904-01-01T00:00:00 UTC, so
`createdRaw = 0` decodes to that instant; and for byte-valued input the
result always fits in a signed 64-bit domain, so the arbitrary-precision
Python arithmetic agrees with 64-bit signed arithmetic. -/
theorem C5_created_timestamp (header : List Nat)
    (hbytes : ∀ b ∈ header, b < 256) :
    ((decode_header header).created
        = (str_to_Long4 (readBytes header 46 4) : Int) + time_Offset)
    ∧ time_Offset = -2082844800
    ∧ (str_to_Long4 (readBytes header 46 4) = 0 →
        (decode_header header).created = -2082844800)
    ∧ (-(2 ^ 63) ≤ (decode_header header).created
        ∧ (decode_header header).created < 2 ^ 63) := by
  have hraw : str_to_Long4 (readBytes header 46 4) < 2 ^ 32 :=
    str_to_Long4_lt _ (fun b hb => hbytes b (readBytes_mem hb))
  refine ⟨rfl, rfl, fun h0 => ?_, ?_, ?_⟩
  · show (str_to_Long4 (readBytes header 46 4) : Int) + time_Offset = -2082844800
    rw [h0, time_Offset]
    norm_num
  · show -(2 ^ 63) ≤ (str_to_Long4 (readBytes header 46 4) : Int) + time_Offset
    rw [time_Offset]
    omega
  · show (str_to_Long4 (readBytes header 46 4) : Int) + time_Offset < 2 ^ 63
    rw [time_Offset]
    omega

/-- Witness for C5 at the all-zero 58-byte header. -/
theorem C5_created_timestamp_witness :
    (decode_header (List.replicate 58 0)).created = -2082844800 :=
  (C5_created_timestamp (List.replicate 58 0)
      (fun b hb => by rw [List.eq_of_mem_replicate hb]; norm_num)).2.2.1
    (by decide)

/-- C9: an explicit image number `n < -1` is not rejected by `get_header`
or `get_image`: it is below the record count, so both accept it, set the
navigation cursor to the negative value `n`, and (when `-len ≤ n`) the
sorted offset list is indexed from its end, so `n = -2` silently
addresses the second-to-last image instead of failing. -/
theorem C9_negative_image_numbers (emDB emVGADB : List Nat)
    (vga_dict : List (Nat × Nat)) (s : EyeState) (n : Int) (hn : n < -1) :
    ((get_header emDB s n).2.cur_image = n)
    ∧ ((get_image emDB emVGADB vga_dict s n).2.cur_image = n)
    ∧ ((get_image emDB emVGADB vga_dict s n).1 ≠ .retNone)
    ∧ (-(s.images.length : Int) ≤ n →
        ∀ h, unpack_header
            (readBytes emDB
              (s.images.getD ((s.images.length : Int) + n).toNat 0)
              HEADER_LENGTH)
            = some h →
          (get_header emDB s n).1 = .ok h) := by
  refine ⟨?_, ?_, ?_, fun hlen hdr hdec => ?_⟩
  · rw [get_header, if_neg (by omega), if_pos (by omega), header_at_state]
  · rw [get_image, if_neg (by omega), if_pos (by omega),
      get_image_body_cursor]
  · rw [get_image, if_neg (by omega), if_pos (by omega)]
    exact get_image_body_ne_retNone emDB emVGADB vga_dict _ n
  · rw [get_header, if_neg (by omega), if_pos (by omega),
      header_at_ok emDB { s with cur_image := n } n
        (s.images.getD ((s.images.length : Int) + n).toNat 0)
        (pyIndex_negIdx _ _ (by omega) hlen) hdr hdec]

/-- Witness for C9: in a three-image catalog over a 60-byte all-zero
container, the explicit number `-2` sets the cursor to `-2` in both
methods and `get_header` successfully unpacks and decodes the 58-byte
header of the second-to-last image (offset 1). -/
theorem C9_negative_image_numbers_witness :
    ((get_header (List.replicate 60 0) ⟨0, 3, [0, 1, 2]⟩ (-2)).2.cur_image
        = -2)
    ∧ ((get_image (List.replicate 60 0) [] [] ⟨0, 3, [0, 1, 2]⟩
          (-2)).2.cur_image = -2)
    ∧ ((get_header (List.replicate 60 0) ⟨0, 3, [0, 1, 2]⟩ (-2)).1
        = .ok { Name := [], version := 0, imgType := 0, firstVGARecUID := 0,
                noteUID := 0, lastPosX := 0, lastPosY := 0,
                created := -2082844800, anchorX := 0, anchorY := 0,
                Width := 0, Height := 0 }) :=
  have h := C9_negative_image_numbers (List.replicate 60 0) [] []
    ⟨0, 3, [0, 1, 2]⟩ (-2) (by decide)
  ⟨h.1, h.2.1, h.2.2.2 (by decide) _ (by decide)⟩

/-! ## Helper lemmas for the index builders -/

/-- Every iteration of the VGA scan loop adds one dict entry. -/
theorem build_vga_loop_length (emVGADB : List Nat) :
    ∀ (iters pos : Nat), (build_vga_loop emVGADB iters pos).length = iters := by
  intro iters
  induction iters with
  | zero => intro pos; rfl
  | succ n ih =>
    intro pos
    rw [build_vga_loop, List.length_cons, ih]

/-- The `k`-th entry of the VGA scan loop is the indexed record 192·k
bytes past the starting position. -/
theorem build_vga_loop_getElem (emVGADB : List Nat) :
    ∀ (iters pos k : Nat), k < iters →
      (build_vga_loop emVGADB iters pos)[k]?
        = some (vga_index_entry emVGADB (pos + 192 * k)) := by
  intro iters
  induction iters with
  | zero => intro pos k h; omega
  | succ n ih =>
    intro pos k hk
    rw [build_vga_loop]
    cases k with
    | zero => simp
    | succ m =>
      rw [List.getElem?_cons_succ, ih (pos + 8 + 184) m (by omega)]
      have harith : pos + 8 + 184 + 192 * m = pos + 192 * (m + 1) := by ring
      rw [harith]

/-- Keys of a dict after an insertion: the surviving old keys followed by
the inserted key. -/
theorem dict_keys_dict_insert (d : List (Nat × Nat)) (k v : Nat) :
    dict_keys (dict_insert d k v)
      = dict_keys (d.filter (fun p => p.1 != k)) ++ [k] := by
  rw [dict_insert, dict_keys, List.map_append, dict_keys]
  rfl

/-- Membership in the keys of a key-filtered dict. -/
theorem mem_dict_keys_filter (d : List (Nat × Nat)) (k x : Nat) :
    x ∈ dict_keys (d.filter (fun p => p.1 != k))
      ↔ x ∈ dict_keys d ∧ x ≠ k := by
  simp only [dict_keys, List.mem_map, List.mem_filter, bne_iff_ne]
  constructor
  · rintro ⟨p, ⟨hp, hne⟩, rfl⟩
    exact ⟨⟨p, hp, rfl⟩, hne⟩
  · rintro ⟨⟨p, hp, rfl⟩, hne⟩
    exact ⟨p, ⟨hp, hne⟩, rfl⟩

/-- Dict insertion keeps the key list duplicate-free. -/
theorem dict_insert_keys_nodup (d : List (Nat × Nat)) (k v : Nat)
    (h : (dict_keys d).Nodup) : (dict_keys (dict_insert d k v)).Nodup := by
  rw [dict_keys_dict_insert]
  refine List.Nodup.append ?_ (List.nodup_singleton k) ?_
  · exact h.sublist ((List.filter_sublist d).map Prod.fst)
  · intro x hx hxk
    rw [List.mem_singleton] at hxk
    subst hxk
    exact ((mem_dict_keys_filter d x x).1 hx).2 rfl

/-- Membership in the keys of a dict after an insertion. -/
theorem mem_dict_keys_insert (d : List (Nat × Nat)) (k v x : Nat) :
    x ∈ dict_keys (dict_insert d k v) ↔ x ∈ dict_keys d ∨ x = k := by
  rw [dict_keys_dict_insert, List.mem_append, List.mem_singleton,
    mem_dict_keys_filter]
  constructor
  · rintro (⟨h, _⟩ | h)
    exacts [Or.inl h, Or.inr h]
  · rintro (h | h)
    · by_cases hk : x = k
      exacts [Or.inr hk, Or.inl ⟨h, hk⟩]
    · exact Or.inr h

/-- A member of a dict after an insertion is an old member or the
inserted pair. -/
theorem mem_dict_insert (d : List (Nat × Nat)) (k v : Nat)
    (p : Nat × Nat) (hp : p ∈ dict_insert d k v) : p ∈ d ∨ p = (k, v) := by
  rw [dict_insert, List.mem_append, List.mem_singleton] at hp
  rcases hp with h | h
  · exact Or.inl (List.mem_of_mem_filter h)
  · exact Or.inr h

/-- The main-index fold keeps its key list duplicate-free. -/
theorem build_dict_keys_nodup_aux (entries : List (Nat × Nat)) :
    ∀ d : List (Nat × Nat), (dict_keys d).Nodup →
      (dict_keys
        (entries.foldl (fun d e => dict_insert d e.1 (e.2 &&& 0x0F)) d)).Nodup := by
  induction entries with
  | nil => intro d h; exact h
  | cons e es ih =>
    intro d h
    exact ih _ (dict_insert_keys_nodup _ _ _ h)

/-- The offsets dict of the main index has duplicate-free keys. -/
theorem build_keys_nodup (entries : List (Nat × Nat)) :
    (dict_keys (build_rec_data_offset_dict entries)).Nodup :=
  build_dict_keys_nodup_aux entries [] (by simp [dict_keys])

/-- Membership in the keys accumulated by the main-index fold. -/
theorem mem_build_keys_aux (entries : List (Nat × Nat)) :
    ∀ (d : List (Nat × Nat)) (x : Nat),
      x ∈ dict_keys
          (entries.foldl (fun d e => dict_insert d e.1 (e.2 &&& 0x0F)) d)
        ↔ x ∈ dict_keys d ∨ x ∈ entries.map Prod.fst := by
  induction entries with
  | nil => intro d x; simp
  | cons e es ih =>
    intro d x
    rw [List.foldl_cons, ih, mem_dict_keys_insert, List.map_cons,
      List.mem_cons]
    tauto

/-- The keys of the offsets dict are exactly the record data offsets. -/
theorem mem_build_keys (entries : List (Nat × Nat)) (x : Nat) :
    x ∈ dict_keys (build_rec_data_offset_dict entries)
      ↔ x ∈ entries.map Prod.fst := by
  rw [build_rec_data_offset_dict, mem_build_keys_aux]
  simp [dict_keys]

/-- Every category id stored by the main-index fold is at most 15. -/
theorem build_values_le_aux (entries : List (Nat × Nat)) :
    ∀ d : List (Nat × Nat), (∀ p ∈ d, p.2 ≤ 15) →
      ∀ p ∈ entries.foldl (fun d e => dict_insert d e.1 (e.2 &&& 0x0F)) d,
        p.2 ≤ 15 := by
  induction entries with
  | nil => intro d h; exact h
  | cons e es ih =>
    intro d h
    refine ih _ (fun p hp => ?_)
    rcases mem_dict_insert _ _ _ _ hp with h' | h'
    · exact h p h'
    · rw [h']
      exact Nat.and_le_right

/-- Every category id stored in the offsets dict is at most 15. -/
theorem build_values_le (entries : List (Nat × Nat)) :
    ∀ p ∈ build_rec_data_offset_dict entries, p.2 ≤ 15 :=
  build_values_le_aux entries [] (by simp)

/-- A successful association-list lookup returns a member pair. -/
theorem lookup_mem {d : List (Nat × Nat)} {k v : Nat}
    (h : d.lookup k = some v) : (k, v) ∈ d := by
  induction d with
  | nil => simp at h
  | cons p ps ih =>
    rcases p with ⟨q, w⟩
    rw [List.lookup_cons] at h
    by_cases hk : k = q
    · subst hk
      simp only [beq_self_eq_true] at h
      cases h
      exact List.mem_cons_self _ _
    · have hb : (k == q) = false := beq_false_of_ne hk
      rw [hb] at h
      exact List.mem_cons_of_mem _ (ih h)

/-- The keys of the offsets dict have the same length as the
deduplicated offset list. -/
theorem keys_length_eq_dedup (entries : List (Nat × Nat)) :
    (dict_keys (build_rec_data_offset_dict entries)).length
      = (entries.map Prod.fst).dedup.length := by
  have h1 := build_keys_nodup entries
  have h2 : (entries.map Prod.fst).dedup.Nodup := List.nodup_dedup _
  have hfin : (dict_keys (build_rec_data_offset_dict entries)).toFinset
      = (entries.map Prod.fst).dedup.toFinset := by
    ext x
    rw [List.mem_toFinset, List.mem_toFinset, List.mem_dedup]
    exact mem_build_keys entries x
  rw [← List.toFinset_card_of_nodup h1, ← List.toFinset_card_of_nodup h2,
    hfin]

/-- The note loop runs out of fuel, never terminating, whenever no NUL
byte occurs at or after the starting position. -/
theorem note_loop_no_nul (emNoteDB : List Nat) :
    ∀ (fuel pos : Nat),
      (∀ i, pos ≤ i → i < emNoteDB.length → emNoteDB.getD i 0 ≠ 0) →
      note_loop emNoteDB fuel pos = none := by
  intro fuel
  induction fuel with
  | zero => intro pos _; rfl
  | succ fuel ih =>
    intro pos h
    rw [note_loop]
    cases hc : emNoteDB[pos]? with
    | none => exact ih pos h
    | some c =>
      have hlt : pos < emNoteDB.length := by
        by_contra hge
        rw [List.getElem?_eq_none (by omega)] at hc
        cases hc
      have hcd : emNoteDB.getD pos 0 = c := by
        rw [List.getD_eq_getElem _ _ hlt]
        rw [List.getElem?_eq_getElem hlt] at hc
        exact Option.some_injective _ hc
      have hne : c ≠ 0 := hcd ▸ h pos le_rfl hlt
      show (if c = 0 then some [] else
          Option.map (fun text => c :: text)
            (note_loop emNoteDB fuel (pos + 1))) = none
      rw [if_neg hne, ih (pos + 1) (fun i hi hil => h i (by omega) hil)]
      rfl

/-! ## Claim theorems for the index builders and the note loop -/

/-- C6 counterexample: with a record count of 25, which is not a multiple
of 24, the Color Index build does not fail: it performs two indexed reads
(at positions 78 and 270) and returns a well-defined two-entry index,
contrary to the claim that it fails with MalformedContainer. -/
theorem C6_vga_index_counterexample :
    25 % 24 ≠ 0
    ∧ build_vga_index (List.replicate 300 7) 25
        = [(460551, 117901063), (460551, 117901063)] := by
  decide

/-- C6 as amended: the Color Index build never fails on any record
count; it performs `⌈recordCount / 24⌉` indexed reads — exactly
`recordCount / 24` when the count is a multiple of 24 — and the `k`-th
read takes the 8-byte entry at byte `78 + 192·k` (an 8-byte read followed
by a 184-byte skip), inserting the 3-byte big-endian uid at offset 5 of
the entry mapped to the big-endian `dataOffset` at its start. -/
theorem C6_vga_index_build (emVGADB : List Nat) (vga_record_cnt : Nat) :
    ((build_vga_index emVGADB vga_record_cnt).length
        = (vga_record_cnt + 23) / 24)
    ∧ (vga_record_cnt % 24 = 0 →
        (build_vga_index emVGADB vga_record_cnt).length
          = vga_record_cnt / 24)
    ∧ (∀ k, k < (vga_record_cnt + 23) / 24 →
        (build_vga_index emVGADB vga_record_cnt)[k]?
          = some (str_to_Long3 (readBytes emVGADB (78 + 192 * k + 5) 3),
                  str_to_Long4 (readBytes emVGADB (78 + 192 * k) 4))) := by
  refine ⟨build_vga_loop_length _ _ _, fun h => ?_, fun k hk => ?_⟩
  · rw [build_vga_index, build_vga_loop_length]
    omega
  · rw [build_vga_index, build_vga_loop_getElem _ _ _ _ hk]
    rfl

/-- Witness for C6 as amended, on a 48-record container: two indexed
reads, the second at byte 270. -/
theorem C6_vga_index_build_witness :
    ((build_vga_index (List.replicate 300 7) 48).length = 48 / 24)
    ∧ ((build_vga_index (List.replicate 300 7) 48)[1]?
        = some (str_to_Long3 (readBytes (List.replicate 300 7) (78 + 192 * 1 + 5) 3),
                str_to_Long4 (readBytes (List.replicate 300 7) (78 + 192 * 1) 4))) :=
  ⟨(C6_vga_index_build (List.replicate 300 7) 48).2.1 (by decide),
   (C6_vga_index_build (List.replicate 300 7) 48).2.2 1 (by decide)⟩

/-- C7 counterexample: two record entries sharing the data offset 5 yield
the one-element Image Index `[5]` (N = 1 distinct offset), yet
`max_image_nr` returns the record count 2, contrary to the claim that the
image count equals the number N of distinct offsets. -/
theorem C7_image_index_counterexample :
    images_list [(5, 0), (5, 1)] = [5]
    ∧ (([(5, 0), (5, 1)] : List (Nat × Nat)).map Prod.fst).dedup.length = 1
    ∧ max_image_nr (init_state [(5, 0), (5, 1)]) ≠ 1 := by
  decide

/-- C7 as amended: the Image Index is the strictly ascending, duplicate-
free sorting of the record data offsets (so its length is the number of
distinct offsets), but `max_image_nr` returns the raw record count, which
equals the Image Index length only when the offsets are all distinct. -/
theorem C7_image_index (entries : List (Nat × Nat)) :
    (images_list entries).Sorted (· < ·)
    ∧ (∀ o, o ∈ images_list entries ↔ o ∈ entries.map Prod.fst)
    ∧ (images_list entries).length = (entries.map Prod.fst).dedup.length
    ∧ max_image_nr (init_state entries) = entries.length
    ∧ ((entries.map Prod.fst).Nodup →
        max_image_nr (init_state entries) = (images_list entries).length) := by
  have hperm : List.Perm (images_list entries)
      (dict_keys (build_rec_data_offset_dict entries)) :=
    List.perm_insertionSort _ _
  have hnodup : (images_list entries).Nodup :=
    hperm.nodup_iff.mpr (build_keys_nodup entries)
  refine ⟨?_, ?_, ?_, rfl, ?_⟩
  · exact (List.sorted_insertionSort _ _).lt_of_le hnodup
  · intro o
    rw [hperm.mem_iff]
    exact mem_build_keys entries o
  · rw [hperm.length_eq]
    exact keys_length_eq_dedup entries
  · intro hnd
    have hlen : (images_list entries).length = (entries.map Prod.fst).length := by
      rw [hperm.length_eq, keys_length_eq_dedup, List.dedup_eq_self.mpr hnd]
    rw [hlen, List.length_map]
    rfl

/-- Witness for C7 as amended at a three-record container with distinct
offsets: the index sorts to `[10, 20, 30]` and the image count equals its
length. -/
theorem C7_image_index_witness :
    (images_list [(30, 1), (10, 2), (20, 3)]).Sorted (· < ·)
    ∧ max_image_nr (init_state [(30, 1), (10, 2), (20, 3)])
        = (images_list [(30, 1), (10, 2), (20, 3)]).length :=
  ⟨(C7_image_index [(30, 1), (10, 2), (20, 3)]).1,
   (C7_image_index [(30, 1), (10, 2), (20, 3)]).2.2.2.2 (by decide)⟩

/-- C8: every category id stored by the Image Index build is
`attr & 0x0F ≤ 15`; and when an image's category id is not a valid index
into the name table, `categoryOf` fails (`none`) rather than clamping,
and any name it does return is an actual member of the table. -/
theorem C8_category_id (entries : List (Nat × Nat))
    (category_names : List (List Nat)) (image_nr : Nat) :
    (∀ p ∈ build_rec_data_offset_dict entries, p.2 ≤ 15)
    ∧ (∀ off cid,
        (images_list entries)[image_nr]? = some off →
        (build_rec_data_offset_dict entries).lookup off = some cid →
        category_names.length ≤ cid →
        categoryOf entries category_names image_nr = none)
    ∧ (∀ name, categoryOf entries category_names image_nr = some name →
        name ∈ category_names) := by
  refine ⟨build_values_le entries, fun off cid hoff hcid hlen => ?_,
    fun name hname => ?_⟩
  · rw [categoryOf, hoff]
    show (match (build_rec_data_offset_dict entries).lookup off with
      | none => none
      | some cid => category_names[cid]?) = none
    rw [hcid]
    show category_names[cid]? = none
    exact List.getElem?_eq_none hlen
  · rw [categoryOf] at hname
    rcases h1 : (images_list entries)[image_nr]? with _ | off
    · rw [h1] at hname
      have hcontra : (none : Option (List Nat)) = some name := hname
      cases hcontra
    · rw [h1] at hname
      have hname2 : (match (build_rec_data_offset_dict entries).lookup off with
          | none => none
          | some cid => category_names[cid]?) = some name := hname
      rcases h2 : (build_rec_data_offset_dict entries).lookup off with _ | cid
      · rw [h2] at hname2
        have hcontra : (none : Option (List Nat)) = some name := hname2
        cases hcontra
      · rw [h2] at hname2
        have hname3 : category_names[cid]? = some name := hname2
        exact List.getElem?_mem hname3

/-- Witness for C8: the single record `(100, 23)` stores category id
`23 & 0x0F = 7`; against a one-name table, `categoryOf` fails with a hard
`none`. -/
theorem C8_category_id_witness :
    categoryOf [(100, 23)] [[65]] 0 = none :=
  (C8_category_id [(100, 23)] [[65]] 0).2.1 100 7 (by decide) (by decide)
    (by decide)

/-- C10: the note-text loop reads one byte at a time from the payload
offset, terminating exactly when the byte read is NUL (emitting nothing
more) and otherwise continuing with the next position; a read at
end-of-file yields the empty string, which is not NUL, so the loop
re-reads at the same position; hence for every note container without a
NUL byte at or after the payload offset the loop never terminates,
whatever the fuel. -/
theorem C10_note_loop_nontermination (emNoteDB : List Nat) (pos : Nat) :
    (∀ c fuel, emNoteDB[pos]? = some c →
      (c = 0 → note_loop emNoteDB (fuel + 1) pos = some [])
      ∧ (c ≠ 0 → note_loop emNoteDB (fuel + 1) pos
          = (note_loop emNoteDB fuel (pos + 1)).map (fun text => c :: text)))
    ∧ (emNoteDB[pos]? = none →
        ∀ fuel, note_loop emNoteDB (fuel + 1) pos
          = note_loop emNoteDB fuel pos)
    ∧ ((∀ i, pos ≤ i → i < emNoteDB.length → emNoteDB.getD i 0 ≠ 0) →
        ∀ fuel, note_loop emNoteDB fuel pos = none) := by
  refine ⟨fun c fuel hc => ⟨fun h0 => ?_, fun hne => ?_⟩, fun hc fuel => ?_,
    fun h fuel => note_loop_no_nul emNoteDB fuel pos h⟩
  · rw [note_loop, hc]
    show (if c = 0 then some [] else _) = some []
    rw [if_pos h0]
  · rw [note_loop, hc]
    show (if c = 0 then some [] else
        Option.map (fun text => c :: text)
          (note_loop emNoteDB fuel (pos + 1))) = _
    rw [if_neg hne]
  · rw [note_loop, hc]

/-- Witness for C10: the NUL-free container `[104, 105]` never lets the
loop terminate (here with fuel 5), while a NUL at the read position ends
the loop at once. -/
theorem C10_note_loop_nontermination_witness :
    note_loop [104, 105] 5 0 = none
    ∧ note_loop [0] 1 0 = some [] :=
  ⟨(C10_note_loop_nontermination [104, 105] 0).2.2 (by decide) 5,
   ((C10_note_loop_nontermination [0] 0).1 0 0 (by decide)).1 rfl⟩

end EyeModule
